import Mathlib

/-!
Shallow embedding of the evaluation / aggregation / rendering pipeline of
`src/main.py` (finance_bot).  Prices and percentages are modelled as
rationals (`ℚ`); Python raises caught by the per-ticker handler are
modelled as `none` / `Except.error`.  The tie behaviour of binary
floating-point rounding at render time is not modelled: `round` on `ℚ`
stands in for the decimal rounding performed by Python `%`-formatting.
-/

/-- A watchlist row as built by `load_portfolio_targets` /
`load_other_targets`: portfolio rows carry no thresholds (`up`/`down`
absent, i.e. `none`), other rows carry both. -/
structure Target where
  ticker : String
  company_name : String
  is_portfolio : Bool
  up : Option ℚ
  down : Option ℚ
deriving Repr, DecidableEq

/-- What one `yf.Ticker` session can be observed to return in
`check_stock`: `stock.info.get ("previousClose")` (may be absent),
the 1-day 1-minute close column `data` (`data.empty` iff the list is
empty, `iloc[-1]` is the last element), and the 5-day daily close
column `hist_5d`. -/
structure Quote where
  previousClose : Option ℚ
  intraday : List ℚ
  hist5d : List ℚ
deriving Repr, DecidableEq

/-- The notification dictionary built by `check_stock`.  The portfolio
branch stores no `status` / `threshold` keys, modelled as `none`. -/
structure Notif where
  ticker : String
  company_name : String
  change_pct : ℚ
  prev_close : ℚ
  current_price : ℚ
  status : Option String
  threshold : Option ℚ
  is_portfolio : Bool
deriving Repr, DecidableEq

/-- `change_pct = ((current_price - prev_close) / prev_close) * 100`
(src/main.py line 134). -/
def changePct (current_price prev_close : ℚ) : ℚ :=
  (current_price - prev_close) / prev_close * 100

/-- Resolution of `prev_close` in `check_stock` (lines 113, 124-131):
take `info.get ("previousClose")` if present, otherwise fall back to
`hist_5d.iloc[-2]` when at least two daily rows exist, otherwise give up. -/
def resolvePrev (stock : Quote) : Option ℚ :=
  match stock.previousClose with
  | some p => some p
  | none =>
      if 2 ≤ stock.hist5d.length then stock.hist5d[stock.hist5d.length - 2]?
      else none

/-- The classification logic of `check_stock` after prices are resolved
(lines 134-184).  A missing threshold on a non-portfolio row would make
`change_pct >= None` raise `TypeError` in Python, which the surrounding
handler converts to `None`; that path is the `none` cases below. -/
def classify (target : Target) (current_price prev_close : ℚ) : Option Notif :=
  if target.is_portfolio then
    some { ticker := target.ticker, company_name := target.company_name,
           change_pct := changePct current_price prev_close,
           prev_close := prev_close, current_price := current_price,
           status := none, threshold := none, is_portfolio := true }
  else
    match target.up with
    | none => none
    | some up_thresh =>
      if up_thresh ≤ changePct current_price prev_close then
        some { ticker := target.ticker, company_name := target.company_name,
               change_pct := changePct current_price prev_close,
               prev_close := prev_close, current_price := current_price,
               status := some "📈 上昇", threshold := some up_thresh,
               is_portfolio := false }
      else
        match target.down with
        | none => none
        | some down_thresh =>
          if changePct current_price prev_close ≤ -down_thresh then
            some { ticker := target.ticker, company_name := target.company_name,
                   change_pct := changePct current_price prev_close,
                   prev_close := prev_close, current_price := current_price,
                   status := some "📉 下落", threshold := some down_thresh,
                   is_portfolio := false }
          else none

/-- `check_stock` (lines 99-188).  The quote source is a function from
ticker to either a `Quote` or a raised exception; the `try`/`except`
around the body turns any raise into `None`.  `prev_close = 0` would
raise `ZeroDivisionError` inside the `try`, likewise giving `None`. -/
def check_stock (fetchQuote : String → Except Unit Quote) (target : Target) :
    Option Notif :=
  match fetchQuote target.ticker with
  | .error _ => none
  | .ok stock =>
    if stock.intraday.isEmpty then none
    else
      match resolvePrev stock with
      | none => none
      | some prev_close =>
        if prev_close = 0 then none
        else classify target (stock.intraday.getLast?.getD 0) prev_close

/-- Left-to-right removal of every occurrence of the two-character
pattern `".T"`, the behaviour of Python `ticker.replace (".T", "")`
in `generate_tradingview_url` (line 96). -/
def removeDotT : List Char → List Char
  | c1 :: c2 :: rest =>
      if c1 = '.' ∧ c2 = 'T' then removeDotT rest
      else c1 :: removeDotT (c2 :: rest)
  | l => l

/-- `true` iff the character list contains `".T"` as a substring. -/
def hasDotT : List Char → Bool
  | c1 :: c2 :: rest =>
      if c1 = '.' ∧ c2 = 'T' then true else hasDotT (c2 :: rest)
  | _ => false

/-- `generate_tradingview_url` (lines 93-97): remove `".T"` from the
ticker and splice the remainder into a fixed URL template. -/
def generate_tradingview_url (ticker : String) : String :=
  "https://jp.tradingview.com/symbols/TSE-" ++
    String.mk (removeDotT ticker.toList) ++ "/"

/-- Modelled from the spec: the spec describes the hyperlink target as the
fixed template with the ticker's market-code SUFFIX token `".T"` stripped;
this definition strips only a trailing `".T"`, for comparison with the
source's replace-all transform. -/
def tradingview_url_spec (ticker : String) : String :=
  let base :=
    if ticker.toList.reverse.take 2 = ['T', '.'] then
      ticker.toList.dropLast.dropLast
    else ticker.toList
  "https://jp.tradingview.com/symbols/TSE-" ++ String.mk base ++ "/"

/-- The character of one decimal digit (argument always `< 10` at use
sites). -/
def digitToChar : Nat → Char
  | 0 => '0' | 1 => '1' | 2 => '2' | 3 => '3' | 4 => '4'
  | 5 => '5' | 6 => '6' | 7 => '7' | 8 => '8' | _ => '9'

/-- The `prec` decimal digits of `m` (most significant first), zero
padded on the left: the fractional digits printed by Python
`%-formatting` with precision `prec` once `m` is the scaled remainder. -/
def fracChars : Nat → Nat → List Char
  | 0, _ => []
  | k + 1, m => digitToChar (m / 10 ^ k % 10) :: fracChars k m

/-- The magnitude of `x` scaled by `10 ^ prec` and rounded to an
integer: the digit material of fixed-point rendering. -/
def scaledAbs (prec : Nat) (x : ℚ) : Nat :=
  (round (|x| * (10 : ℚ) ^ prec)).toNat

/-- Python fixed-point formatting with precision `prec` on the rationals
model: sign of the value, then the rounded magnitude split at the
decimal point, always exactly `prec` digits after the point.  Ties
round half away from zero here, where CPython rounds the underlying
binary float. -/
def formatFixed (prec : Nat) (x : ℚ) : String :=
  String.mk ((if x < 0 then ['-'] else []) ++
    Nat.toDigits 10 (scaledAbs prec x / 10 ^ prec) ++
    '.' :: fracChars prec (scaledAbs prec x % 10 ^ prec))

/-- Python sign-forcing fixed-point formatting (the `+` flag): as
`formatFixed` but the sign character is always present. -/
def formatSignedFixed (prec : Nat) (x : ℚ) : String :=
  String.mk ((if x < 0 then ['-'] else ['+']) ++
    Nat.toDigits 10 (scaledAbs prec x / 10 ^ prec) ++
    '.' :: fracChars prec (scaledAbs prec x % 10 ^ prec))

/-- The characters after the last `'.'` of a rendered number: its
decimal digits. -/
def decimalPart (s : String) : List Char :=
  (s.toList.reverse.takeWhile (fun c => c != '.')).reverse

def upGlyph : String := ":chart_with_upwards_trend:"

def downGlyph : String := ":chart_with_downwards_trend:"

/-- The Slack mrkdwn link fragment `<url|company_name (ticker)>` built in
`format_notification_message` (lines 206-208 and 230-232). -/
def linkedText (notif : Notif) : String :=
  "<" ++ generate_tradingview_url notif.ticker ++ "|" ++
    notif.company_name ++ " (" ++ notif.ticker ++ ")>"

/-- The signed percentage fragment of line 1, Python
`change_str` with format `+.2f` plus a percent sign (lines 203 and 227). -/
def changeStr (notif : Notif) : String :=
  formatSignedFixed 2 notif.change_pct ++ "%"

/-- Line 1 of a portfolio event (lines 202-211): glyph by sign of
`change_pct` (`> 0` up, otherwise down), link, signed percentage. -/
def portfolioLine1 (notif : Notif) : String :=
  (if 0 < notif.change_pct then upGlyph else downGlyph) ++ " " ++
    linkedText notif ++ " 前日比: " ++ changeStr notif

/-- Line 1 of an other-section event (lines 226-235): as the portfolio
line plus the crossed threshold to 1 decimal.  Python indexes
`notif['threshold']` directly; on events produced by `check_stock` for
non-portfolio rows the key is always present (see the event-shape
invariant below), so the `getD` default is never read on such inputs. -/
def otherLine1 (notif : Notif) : String :=
  (if 0 < notif.change_pct then upGlyph else downGlyph) ++ " " ++
    linkedText notif ++ " 前日比: " ++ changeStr notif ++
    " (閾値: " ++ formatFixed 1 (notif.threshold.getD 0) ++ "%)"

/-- Line 2 of any event (lines 214 and 238): both prices to 1 decimal. -/
def priceLine (notif : Notif) : String :=
  "前日終値: " ++ formatFixed 1 notif.prev_close ++ "円 -> 現在値: " ++
    formatFixed 1 notif.current_price ++ "円"

/-- The `lines` list built by `format_notification_message`
(lines 195-241): optional portfolio section, then optional other section
with a `"==="` separator when both sections are present; each event
appends its two lines in iteration order. -/
def messageLines (portfolio_notifications other_notifications : List Notif) :
    List String :=
  let lines : List String := []
  let lines :=
    if portfolio_notifications.isEmpty then lines
    else
      portfolio_notifications.foldl
        (fun acc notif => acc ++ [portfolioLine1 notif, priceLine notif])
        (lines ++ ["ポートフォリオ銘柄"])
  let lines :=
    if other_notifications.isEmpty then lines
    else
      other_notifications.foldl
        (fun acc notif => acc ++ [otherLine1 notif, priceLine notif])
        ((if portfolio_notifications.isEmpty then lines
          else lines ++ ["==="]) ++ ["その他銘柄"])
  lines

/-- `format_notification_message` (lines 190-244): `None` when both
inputs are empty, otherwise the joined lines. -/
def format_notification_message
    (portfolio_notifications other_notifications : List Notif) :
    Option String :=
  if portfolio_notifications.isEmpty ∧ other_notifications.isEmpty then none
  else some (String.intercalate "\n"
    (messageLines portfolio_notifications other_notifications))

/-- The accumulation loops of `main` (lines 261-271): run `check_stock`
over a watchlist in order, appending each returned dictionary. -/
def aggregate (fetchQuote : String → Except Unit Quote)
    (targets : List Target) : List Notif :=
  targets.foldl
    (fun acc target =>
      match check_stock fetchQuote target with
      | some notification_data => acc ++ [notification_data]
      | none => acc)
    []

/-- The dispatch decision of `main` (lines 273-280): a webhook POST is
made, with `format_notification_message`'s result as payload, iff at
least one of the accumulated lists is non-empty.  `none` = no call to
`send_slack` at all. -/
def mainDispatch (fetchQuote : String → Except Unit Quote)
    (portfolio_targets other_targets : List Target) :
    Option (Option String) :=
  let portfolio_notifications := aggregate fetchQuote portfolio_targets
  let other_notifications := aggregate fetchQuote other_targets
  if portfolio_notifications.isEmpty ∧ other_notifications.isEmpty then none
  else some (format_notification_message portfolio_notifications
    other_notifications)

/-! Concrete fixtures used to instantiate the theorems below at closed
inputs (quotes and watchlist rows shaped like the spec's scenarios). -/

/-- A quote whose change is -7% against a resolved previous close. -/
def qDown : Quote :=
  { previousClose := some 1000, intraday := [930], hist5d := [] }

/-- Quote source answering `qDown` for every ticker. -/
def fetchDown : String → Except Unit Quote := fun _ => Except.ok qDown

/-- Other-category row with thresholds +5% / -3%. -/
def tOtherFix : Target :=
  { ticker := "6361.T", company_name := "EBARA", is_portfolio := false,
    up := some 5, down := some 3 }

/-- A quote whose change is +2% against a resolved previous close. -/
def qPort : Quote :=
  { previousClose := some 2500, intraday := [2550], hist5d := [] }

/-- Quote source answering `qPort` for every ticker. -/
def fetchPort : String → Except Unit Quote := fun _ => Except.ok qPort

/-- Portfolio-category row (no thresholds). -/
def tPortFix : Target :=
  { ticker := "7203.T", company_name := "TOYOTA", is_portfolio := true,
    up := none, down := none }

/-- A quote with zero change. -/
def qFlat : Quote :=
  { previousClose := some 100, intraday := [100], hist5d := [] }

/-- Quote source answering `qFlat` for every ticker. -/
def fetchFlat : String → Except Unit Quote := fun _ => Except.ok qFlat

/-- Misconfigured other-category row whose negative thresholds make the
up and down conditions hold simultaneously at zero change. -/
def tTieFix : Target :=
  { ticker := "9999.T", company_name := "TIE", is_portfolio := false,
    up := some (-5), down := some (-5) }

/-- Quote source that raises for ticker `"1111.T"` and answers `qDown`
for every other ticker. -/
def fetchMixed : String → Except Unit Quote :=
  fun s => if s = "1111.T" then Except.error () else Except.ok qDown

/-- Other-category row whose ticker makes `fetchMixed` raise. -/
def tFailFix : Target :=
  { ticker := "1111.T", company_name := "FAIL", is_portfolio := false,
    up := some 5, down := some 3 }

/-- A quote with no `previousClose` but three daily closes in the
lookback window. -/
def qFallback : Quote :=
  { previousClose := none, intraday := [30], hist5d := [10, 20, 30] }

/-- Quote source answering `qFallback` for every ticker. -/
def fetchFallback : String → Except Unit Quote := fun _ => Except.ok qFallback

/-- A portfolio notification event at +2%. -/
def nPortFix : Notif :=
  { ticker := "7203.T", company_name := "TOYOTA",
    change_pct := changePct 2550 2500, prev_close := 2500,
    current_price := 2550, status := none, threshold := none,
    is_portfolio := true }

/-! Helper lemmas. -/

/-- Removing the pattern from a pattern-free character list is the
identity. -/
theorem removeDotT_no_occ : ∀ l : List Char, hasDotT l = false → removeDotT l = l
  | [] => fun _ => rfl
  | [c] => fun _ => rfl
  | c1 :: c2 :: rest => fun h => by
      by_cases hc : c1 = '.' ∧ c2 = 'T'
      · simp [hasDotT, hc] at h
      · simp only [hasDotT, if_neg hc] at h
        simp only [removeDotT, if_neg hc]
        exact congrArg _ (removeDotT_no_occ (c2 :: rest) h)

/-- On a pattern-free base, removing the pattern from `base ++ ".T"`
strips exactly the suffix; no occurrence can span the boundary because
the pattern does not start with `'T'`. -/
theorem removeDotT_append_suffix :
    ∀ l : List Char, hasDotT l = false → removeDotT (l ++ ['.', 'T']) = l
  | [] => fun _ => by simp [removeDotT]
  | [c] => fun _ => by
      have hc : ¬(c = '.' ∧ '.' = 'T') := by simp
      simp [removeDotT, hc]
  | c1 :: c2 :: rest => fun h => by
      by_cases hc : c1 = '.' ∧ c2 = 'T'
      · simp [hasDotT, hc] at h
      · simp only [hasDotT, if_neg hc] at h
        show removeDotT (c1 :: c2 :: (rest ++ ['.', 'T'])) = c1 :: c2 :: rest
        simp only [removeDotT, if_neg hc]
        exact congrArg _ (removeDotT_append_suffix (c2 :: rest) h)

/-- Under a successful fetch with intraday data, a resolved non-zero
previous close reduces `check_stock` to the classification step. -/
theorem check_stock_resolved (fetchQuote : String → Except Unit Quote)
    (t : Target) (q : Quote) (prev : ℚ)
    (hf : fetchQuote t.ticker = Except.ok q)
    (hne : q.intraday.isEmpty = false)
    (hprev : resolvePrev q = some prev) (h0 : prev ≠ 0) :
    check_stock fetchQuote t = classify t (q.intraday.getLast?.getD 0) prev := by
  unfold check_stock
  rw [hf]
  simp [hne, hprev, h0]

/-- The per-notification two-line append loop of the renderer is a
`flatMap` after the initial segment. -/
theorem foldl_lines_eq (f : Notif → List String) :
    ∀ (l : List Notif) (init : List String),
      l.foldl (fun acc n => acc ++ f n) init = init ++ l.flatMap f := by
  intro l
  induction l with
  | nil => intro init; simp
  | cons n rest ih => intro init; simp [List.foldl_cons, ih]

/-- The accumulation loop of `main` is a `filterMap` after the initial
segment. -/
theorem aggregate_foldl_eq (fetchQuote : String → Except Unit Quote) :
    ∀ (l : List Target) (init : List Notif),
      l.foldl (fun acc target =>
        match check_stock fetchQuote target with
        | some notification_data => acc ++ [notification_data]
        | none => acc) init = init ++ l.filterMap (check_stock fetchQuote) := by
  intro l
  induction l with
  | nil => intro init; simp
  | cons t rest ih =>
      intro init
      cases hc : check_stock fetchQuote t with
      | none => simp [List.foldl_cons, hc, ih, List.filterMap_cons]
      | some n => simp [List.foldl_cons, hc, ih, List.filterMap_cons]

/-- `aggregate` is `filterMap` over the watchlist. -/
theorem aggregate_eq (fetchQuote : String → Except Unit Quote) (l : List Target) :
    aggregate fetchQuote l = l.filterMap (check_stock fetchQuote) := by
  unfold aggregate
  rw [aggregate_foldl_eq]
  simp

/-- A decimal digit character is never the decimal point. -/
theorem digitToChar_ne_dot : ∀ d : Nat, (digitToChar d != '.') = true
  | 0 => rfl | 1 => rfl | 2 => rfl | 3 => rfl | 4 => rfl
  | 5 => rfl | 6 => rfl | 7 => rfl | 8 => rfl | _ + 9 => rfl

/-- `fracChars` always produces exactly `prec` characters. -/
theorem fracChars_length : ∀ (k m : Nat), (fracChars k m).length = k
  | 0, _ => rfl
  | k + 1, m => by simp [fracChars, fracChars_length k m]

/-- `fracChars` never produces a decimal point. -/
theorem fracChars_ne_dot :
    ∀ (k m : Nat), ∀ c ∈ fracChars k m, (c != '.') = true
  | 0, _ => by intro c hc; simp [fracChars] at hc
  | k + 1, m => by
      intro c hc
      simp only [fracChars, List.mem_cons] at hc
      rcases hc with hc | hc
      · rw [hc]; exact digitToChar_ne_dot _
      · exact fracChars_ne_dot k m c hc

/-- `takeWhile` over a block of satisfying elements followed by a
failing one returns exactly the block. -/
theorem takeWhile_all_append (p : Char → Bool) :
    ∀ (l1 l2 : List Char) (a : Char), (∀ c ∈ l1, p c = true) → p a = false →
      List.takeWhile p (l1 ++ a :: l2) = l1 := by
  intro l1
  induction l1 with
  | nil => intro l2 a _ ha; simp [List.takeWhile_cons, ha]
  | cons c rest ih =>
      intro l2 a hall ha
      have hc : p c = true := hall c (List.mem_cons_self c rest)
      simp only [List.cons_append, List.takeWhile_cons, hc, if_true]
      rw [ih l2 a (fun x hx => hall x (List.mem_cons_of_mem c hx)) ha]

/-- `decimalPart` of a string ending in `'.'` followed by point-free
characters is exactly those characters. -/
theorem decimalPart_mk (pre frac : List Char)
    (h : ∀ c ∈ frac, (c != '.') = true) :
    decimalPart (String.mk (pre ++ '.' :: frac)) = frac := by
  unfold decimalPart
  show ((pre ++ '.' :: frac).reverse.takeWhile (fun c => c != '.')).reverse = frac
  rw [List.reverse_append, List.reverse_cons, List.append_assoc,
    List.singleton_append]
  rw [takeWhile_all_append _ frac.reverse (pre.reverse) '.'
    (fun c hc => h c (List.mem_reverse.mp hc)) (by decide)]
  exact List.reverse_reverse frac

/-- A price rendered with precision `prec` carries exactly `prec`
digits after the point. -/
theorem decimalPart_formatFixed (prec : Nat) (x : ℚ) :
    (decimalPart (formatFixed prec x)).length = prec := by
  unfold formatFixed
  rw [decimalPart_mk _ _ (fracChars_ne_dot prec _)]
  exact fracChars_length prec _

/-- A signed percentage rendered with precision `prec` carries exactly
`prec` digits after the point. -/
theorem decimalPart_formatSignedFixed (prec : Nat) (x : ℚ) :
    (decimalPart (formatSignedFixed prec x)).length = prec := by
  unfold formatSignedFixed
  rw [decimalPart_mk _ _ (fracChars_ne_dot prec _)]
  exact fracChars_length prec _

/-- The sign-forced rendering always begins with an explicit sign. -/
theorem formatSignedFixed_head (prec : Nat) (x : ℚ) :
    (formatSignedFixed prec x).toList.head? =
      some (if x < 0 then '-' else '+') := by
  unfold formatSignedFixed
  by_cases hx : x < 0 <;> simp [hx, String.toList]

/-! Claim theorems. -/

/-- C1: for every Other-category watchlist entry with a resolved quote
(current price and a positive previous close available), `check_stock`
returns a notification event if and only if
`change_pct >= up_threshold` or `change_pct <= -down_threshold`, with
`change_pct = (current_price - previous_close) / previous_close * 100`;
equality with either bound counts as a crossing. -/
theorem other_entry_event_iff_threshold_crossed
    (fetchQuote : String → Except Unit Quote)
    (t : Target) (q : Quote) (u d cur prev : ℚ)
    (hf : fetchQuote t.ticker = Except.ok q)
    (hother : t.is_portfolio = false)
    (hu : t.up = some u) (hd : t.down = some d)
    (hne : q.intraday.isEmpty = false)
    (hcur : q.intraday.getLast?.getD 0 = cur)
    (hprev : resolvePrev q = some prev) (hpos : 0 < prev) :
    (check_stock fetchQuote t).isSome = true ↔
      (u ≤ changePct cur prev ∨ changePct cur prev ≤ -d) := by
  rw [check_stock_resolved fetchQuote t q prev hf hne hprev (ne_of_gt hpos), hcur]
  unfold classify
  rw [hother, hu, hd]
  by_cases h1 : u ≤ changePct cur prev
  · simp [h1]
  · by_cases h2 : changePct cur prev ≤ -d
    · simp [h1, h2]
    · simp [h1, h2]

/-- Witness for C1 at the spec's Scenario C numbers: entry with
thresholds up 5 and down 3 against a -7% quote. -/
theorem other_entry_event_iff_threshold_crossed_w :
    (check_stock fetchDown tOtherFix).isSome = true ↔
      ((5 : ℚ) ≤ changePct 930 1000 ∨ changePct 930 1000 ≤ -(3 : ℚ)) :=
  other_entry_event_iff_threshold_crossed fetchDown tOtherFix qDown 5 3 930 1000
    rfl rfl rfl rfl rfl rfl rfl (by decide)

/-- C2: for every Portfolio-category watchlist entry with a resolved
quote (current price and a positive previous close available),
`check_stock` always returns a notification event, whatever the sign or
magnitude of the change. -/
theorem portfolio_entry_always_event
    (fetchQuote : String → Except Unit Quote)
    (t : Target) (q : Quote) (prev : ℚ)
    (hf : fetchQuote t.ticker = Except.ok q)
    (hport : t.is_portfolio = true)
    (hne : q.intraday.isEmpty = false)
    (hprev : resolvePrev q = some prev) (hpos : 0 < prev) :
    (check_stock fetchQuote t).isSome = true := by
  rw [check_stock_resolved fetchQuote t q prev hf hne hprev (ne_of_gt hpos)]
  unfold classify
  rw [hport]
  simp

/-- Witness for C2 at the spec's Scenario A numbers. -/
theorem portfolio_entry_always_event_w :
    (check_stock fetchPort tPortFix).isSome = true :=
  portfolio_entry_always_event fetchPort tPortFix qPort 2500
    rfl rfl rfl rfl (by decide)

/-- C3: when an Other-category entry's change satisfies the up and the
down condition simultaneously, `check_stock` returns the Up event
carrying the up threshold: the up branch takes precedence. -/
theorem up_branch_precedence (fetchQuote : String → Except Unit Quote)
    (t : Target) (q : Quote) (u d cur prev : ℚ)
    (hf : fetchQuote t.ticker = Except.ok q)
    (hother : t.is_portfolio = false)
    (hu : t.up = some u) (hd : t.down = some d)
    (hne : q.intraday.isEmpty = false)
    (hcur : q.intraday.getLast?.getD 0 = cur)
    (hprev : resolvePrev q = some prev) (hpos : 0 < prev)
    (hup : u ≤ changePct cur prev) (hdown : changePct cur prev ≤ -d) :
    check_stock fetchQuote t =
      some { ticker := t.ticker, company_name := t.company_name,
             change_pct := changePct cur prev, prev_close := prev,
             current_price := cur, status := some "📈 上昇",
             threshold := some u, is_portfolio := false } := by
  rw [check_stock_resolved fetchQuote t q prev hf hne hprev (ne_of_gt hpos), hcur]
  unfold classify
  rw [hother, hu]
  simp [hup]

/-- Witness for C3: both thresholds set to -5 (the misconfiguration the
spec mentions) with a flat quote, so both conditions hold at once. -/
theorem up_branch_precedence_w :
    check_stock fetchFlat tTieFix =
      some { ticker := "9999.T", company_name := "TIE",
             change_pct := changePct 100 100, prev_close := 100,
             current_price := 100, status := some "📈 上昇",
             threshold := some (-5), is_portfolio := false } :=
  up_branch_precedence fetchFlat tTieFix qFlat (-5) (-5) 100 100
    rfl rfl rfl rfl rfl rfl rfl (by decide)
    (by simp [changePct]) (by simp [changePct])

/-- C4: the renderer returns `none` exactly on two empty event lists —
empty input gives `none`, any input with a non-empty list gives a
message — and whenever the renderer would return `none` on the
aggregated lists, the main pass makes no dispatch call. -/
theorem render_empty_none_nonempty_some
    (pn on_ : List Notif) (fetchQuote : String → Except Unit Quote)
    (pts ots : List Target) :
    format_notification_message [] [] = none ∧
    (¬(pn = [] ∧ on_ = []) →
      (format_notification_message pn on_).isSome = true) ∧
    (format_notification_message (aggregate fetchQuote pts)
        (aggregate fetchQuote ots) = none →
      mainDispatch fetchQuote pts ots = none) := by
  refine ⟨rfl, ?_, ?_⟩
  · intro h
    unfold format_notification_message
    rw [if_neg]
    · simp
    · simpa [List.isEmpty_iff] using h
  · intro h
    unfold format_notification_message at h
    unfold mainDispatch
    split at h
    · next hemp => rw [if_pos hemp]
    · simp at h

/-- Witness for C4: one portfolio event renders to a message. -/
theorem render_empty_none_nonempty_some_w :
    (format_notification_message [nPortFix] []).isSome = true :=
  (render_empty_none_nonempty_some [nPortFix] [] fetchPort [] []).2.1 (by simp)

/-- C5: in every rendered event line pair, line 1's glyph is chosen
strictly by the sign of `change_pct` (`> 0` up-glyph, otherwise the
down-glyph, zero included), the rendered percentage starts with an
explicit sign and carries exactly 2 decimal digits, and line 2's two
prices each carry exactly 1 decimal digit. -/
theorem rendered_line_format (n : Notif) :
    portfolioLine1 n =
      (if 0 < n.change_pct then upGlyph else downGlyph) ++ " " ++
        linkedText n ++ " 前日比: " ++ changeStr n ∧
    otherLine1 n =
      (if 0 < n.change_pct then upGlyph else downGlyph) ++ " " ++
        linkedText n ++ " 前日比: " ++ changeStr n ++
        " (閾値: " ++ formatFixed 1 (n.threshold.getD 0) ++ "%)" ∧
    changeStr n = formatSignedFixed 2 n.change_pct ++ "%" ∧
    (formatSignedFixed 2 n.change_pct).toList.head? =
      some (if n.change_pct < 0 then '-' else '+') ∧
    (decimalPart (formatSignedFixed 2 n.change_pct)).length = 2 ∧
    priceLine n =
      "前日終値: " ++ formatFixed 1 n.prev_close ++ "円 -> 現在値: " ++
        formatFixed 1 n.current_price ++ "円" ∧
    (decimalPart (formatFixed 1 n.prev_close)).length = 1 ∧
    (decimalPart (formatFixed 1 n.current_price)).length = 1 :=
  ⟨rfl, rfl, rfl, formatSignedFixed_head 2 n.change_pct,
    decimalPart_formatSignedFixed 2 n.change_pct, rfl,
    decimalPart_formatFixed 1 n.prev_close,
    decimalPart_formatFixed 1 n.current_price⟩

/-- C6 counterexample: the claim says the URL equals the template with
the ticker's suffix token `".T"` stripped, but the code removes every
occurrence: on the ticker `"8.T5.T"` the code produces `TSE-85`, while
stripping the suffix would produce `TSE-8.T5`. -/
theorem tradingview_url_suffix_strip_refuted :
    generate_tradingview_url "8.T5.T" ≠ tradingview_url_spec "8.T5.T" := by
  decide

/-- C6 (amended): the hyperlink target is a pure function of the ticker
string alone, equal to the fixed template with every occurrence of
`".T"` removed; when `".T"` occurs only as a trailing suffix this
coincides with stripping that suffix. -/
theorem tradingview_url_replace_all (base : List Char)
    (h : hasDotT base = false) :
    generate_tradingview_url (String.mk base) =
      "https://jp.tradingview.com/symbols/TSE-" ++ String.mk base ++ "/" ∧
    generate_tradingview_url (String.mk (base ++ ['.', 'T'])) =
      "https://jp.tradingview.com/symbols/TSE-" ++ String.mk base ++ "/" ∧
    ∀ ticker : String, generate_tradingview_url ticker =
      "https://jp.tradingview.com/symbols/TSE-" ++
        String.mk (removeDotT ticker.toList) ++ "/" := by
  refine ⟨?_, ?_, fun _ => rfl⟩
  · unfold generate_tradingview_url
    rw [show (String.mk base).toList = base from rfl,
      removeDotT_no_occ base h]
  · unfold generate_tradingview_url
    rw [show (String.mk (base ++ ['.', 'T'])).toList = base ++ ['.', 'T']
        from rfl,
      removeDotT_append_suffix base h]

/-- Witness for C6's amended statement on the ticker `"6361.T"`. -/
theorem tradingview_url_replace_all_w :
    generate_tradingview_url (String.mk (['6', '3', '6', '1'] ++ ['.', 'T'])) =
      "https://jp.tradingview.com/symbols/TSE-" ++
        String.mk ['6', '3', '6', '1'] ++ "/" :=
  (tradingview_url_replace_all ['6', '3', '6', '1'] rfl).2.1

/-- C7: aggregation is an order-preserving filter of the watchlist
(events of earlier entries come before events of later entries, no
sorting), and the rendered sections list events exactly in that
aggregation order. -/
theorem aggregation_render_preserve_order
    (fetchQuote : String → Except Unit Quote)
    (pts l1 l2 : List Target) (t : Target) (pn on_ : List Notif) :
    aggregate fetchQuote pts = pts.filterMap (check_stock fetchQuote) ∧
    aggregate fetchQuote (l1 ++ t :: l2) =
      aggregate fetchQuote l1 ++ (check_stock fetchQuote t).toList ++
        aggregate fetchQuote l2 ∧
    messageLines pn on_ =
      (if pn.isEmpty then [] else
        "ポートフォリオ銘柄" ::
          pn.flatMap (fun n => [portfolioLine1 n, priceLine n])) ++
      (if on_.isEmpty then [] else
        (if pn.isEmpty then [] else ["==="]) ++
          "その他銘柄" ::
            on_.flatMap (fun n => [otherLine1 n, priceLine n])) := by
  refine ⟨aggregate_eq fetchQuote pts, ?_, ?_⟩
  · rw [aggregate_eq, aggregate_eq, aggregate_eq, List.filterMap_append,
      List.filterMap_cons]
    cases hc : check_stock fetchQuote t with
    | none => simp
    | some n => simp
  · unfold messageLines
    by_cases hp : pn.isEmpty <;> by_cases ho : on_.isEmpty <;>
      simp [hp, ho, foldl_lines_eq]

/-- C8: a quote-source raise for one ticker is caught and becomes "no
event" for that ticker alone; the aggregated output is exactly the
aggregation of the remaining entries, with no process-level failure. -/
theorem per_ticker_failure_isolated
    (fetchQuote : String → Except Unit Quote)
    (x : Target) (l1 l2 : List Target)
    (hx : fetchQuote x.ticker = Except.error ()) :
    check_stock fetchQuote x = none ∧
    aggregate fetchQuote (l1 ++ x :: l2) =
      aggregate fetchQuote l1 ++ aggregate fetchQuote l2 := by
  have hnone : check_stock fetchQuote x = none := by
    unfold check_stock
    rw [hx]
  refine ⟨hnone, ?_⟩
  rw [aggregate_eq, aggregate_eq, aggregate_eq, List.filterMap_append,
    List.filterMap_cons, hnone]

/-- Witness for C8: the source raises for `"1111.T"` while the
neighbouring entry still evaluates. -/
theorem per_ticker_failure_isolated_w :
    check_stock fetchMixed tFailFix = none ∧
    aggregate fetchMixed ([tOtherFix] ++ tFailFix :: []) =
      aggregate fetchMixed [tOtherFix] ++ aggregate fetchMixed [] :=
  per_ticker_failure_isolated fetchMixed tFailFix [tOtherFix] [] rfl

/-- C9: when the primary source lacks `previousClose`, the fallback
takes the second-most-recent daily close of the lookback window; when
fewer than two daily closes exist the fallback fails, and an entry
whose previous close cannot be resolved produces no event. -/
theorem previous_close_fallback_policy
    (fetchQuote : String → Except Unit Quote)
    (t : Target) (q : Quote)
    (hf : fetchQuote t.ticker = Except.ok q)
    (hpc : q.previousClose = none) :
    (∀ (xs : List ℚ) (a b : ℚ), q.hist5d = xs ++ [a, b] →
      resolvePrev q = some a) ∧
    (q.hist5d.length < 2 → resolvePrev q = none) ∧
    (resolvePrev q = none → check_stock fetchQuote t = none) := by
  refine ⟨?_, ?_, ?_⟩
  · intro xs a b hxs
    unfold resolvePrev
    rw [hpc, hxs]
    rw [if_pos (by simp)]
    have hlen : (xs ++ [a, b]).length - 2 = xs.length := by simp
    rw [hlen, List.getElem?_append_right (le_refl xs.length)]
    simp
  · intro hlen
    unfold resolvePrev
    rw [hpc, if_neg (by omega)]
  · intro h0
    unfold check_stock
    rw [hf]
    by_cases he : q.intraday.isEmpty <;> simp [he, h0]

/-- Witness for C9: a window of three daily closes resolves to the
middle one (second-most-recent). -/
theorem previous_close_fallback_policy_w :
    resolvePrev qFallback = some 20 :=
  (previous_close_fallback_policy fetchFallback tPortFix qFallback
    rfl rfl).1 [10] 20 30 rfl

/-- C10: every event returned by `check_stock` carries the entry's
ticker, company name and category flag, and carries the direction
(`status`) and `threshold` fields exactly when it is a non-portfolio
event — so the renderer's threshold access on other-section events
produced by evaluation is always defined. -/
theorem event_shape_invariant (fetchQuote : String → Except Unit Quote)
    (t : Target) (n : Notif)
    (h : check_stock fetchQuote t = some n) :
    n.ticker = t.ticker ∧ n.company_name = t.company_name ∧
    n.is_portfolio = t.is_portfolio ∧
    (n.status.isSome = true ↔ n.is_portfolio = false) ∧
    (n.threshold.isSome = true ↔ n.is_portfolio = false) := by
  unfold check_stock at h
  split at h
  · exact absurd h (by simp)
  · next q heq =>
      split at h
      · exact absurd h (by simp)
      · split at h
        · exact absurd h (by simp)
        · next prev hprev =>
            split at h
            · exact absurd h (by simp)
            · next h0 =>
                unfold classify at h
                split at h
                · next hport =>
                    injection h with h
                    subst h
                    simp [hport]
                · next hport =>
                    simp [Bool.not_eq_true] at hport
                    split at h
                    · exact absurd h (by simp)
                    · next u hu =>
                        split at h
                        · injection h with h
                          subst h
                          simp [hport]
                        · split at h
                          · exact absurd h (by simp)
                          · next d hd =>
                              split at h
                              · injection h with h
                                subst h
                                simp [hport]
                              · exact absurd h (by simp)

/-- Witness for C10 on the concrete portfolio evaluation. -/
theorem event_shape_invariant_w :
    nPortFix.ticker = tPortFix.ticker ∧
    nPortFix.company_name = tPortFix.company_name ∧
    nPortFix.is_portfolio = tPortFix.is_portfolio ∧
    (nPortFix.status.isSome = true ↔ nPortFix.is_portfolio = false) ∧
    (nPortFix.threshold.isSome = true ↔ nPortFix.is_portfolio = false) :=
  event_shape_invariant fetchPort tPortFix nPortFix rfl
